import Mathlib

/-!
Verification development for the Water-Stress / Drought-Index Tracker
dashboard (`src/app.py`).

The program is a linear pandas/streamlit script.  We shallowly embed the
data-processing core as pure Lean functions over lists of records:

* dates are month-resolution timestamps, embedded as `Nat` month indices
  (`year * 12 + month`); the data model fixes month resolution, so ordering
  and 24-month offsets are faithful under this encoding;
* `tws_mean_cm` / `predicted_tws` are signed reals, embedded as `ℚ`
  (the claims only concern ordering and equality, for which `ℚ` is a
  faithful, decidable stand-in);
* a pandas `DataFrame` is a list of rows in table order; an optional
  column is an `Option` on the table;
* Python exceptions become `Except` values, and `try/except: return None`
  becomes `Except.toOption`-style conversion.
-/

namespace WaterTracker

/-! ## Record Loader (`load_data`, src/app.py lines 14-22)

`load_data` calls `pd.read_csv` and, when a `date` column is present,
`pd.to_datetime` on it, returning `None` on any exception.  We embed the
relevant pandas failure modes:

* `pd.read_csv` raises `EmptyDataError` on a source with no rows at all.
  When the first data line has more fields than the header, the extra
  leading fields become the row index (documented index-column inference)
  and the named columns shift right by that offset; the expected width is
  then fixed by the header and first data line, and a *later* line with
  more fields than that raises the tokenizer `ParserError` ("Expected N
  fields in line k, saw M").  A line with fewer fields is padded with NaN
  and does not raise.  A source is embedded as the list of its lines, each
  already split into delimited fields;
* `pd.to_datetime` raises on a cell that does not parse as a date, while a
  missing or empty cell (pandas NaN) coerces to `NaT` without raising; we
  model month-resolution dates written `YYYY-MM`, and `NaT` as `none`.
-/

/-- A delimited-text source: each line split into its fields. -/
abbrev Source := List (List String)

/-- The condition that triggers a load failure (the exception `e` that
`load_data` catches). -/
inductive LoadError where
  | emptyData : LoadError
  | tokenizeError (line : Nat) : LoadError
  | dateParseError (cell : String) : LoadError
deriving DecidableEq, Repr

/-- A raw parsed table: header, the number of leading fields of each row
consumed by the inferred row index (0 when the first data line is no
longer than the header), and the data rows (fields as strings). -/
structure RawTable where
  header : List String
  indexOffset : Nat
  rows : List (List String)
deriving DecidableEq, Repr

/-- A loaded table: the raw cells, plus the coerced `date` column when the
header has one — one entry per row, `none` standing for `NaT` (a missing
or empty cell). -/
structure LoadedTable where
  header : List String
  indexOffset : Nat
  rows : List (List String)
  dates : Option (List (Option Nat))
deriving DecidableEq, Repr

/-- Two-digit read helper for `YYYY-MM` month parsing. -/
def digitVal (c : Char) : Option Nat :=
  if c.isDigit then some (c.toNat - '0'.toNat) else none

/-- Parse a month-resolution date `YYYY-MM` into a month index
`year * 12 + (month - 1)`; `none` when the cell is not in that form or the
month is out of range (pandas `to_datetime` raises on such cells). -/
def parseDate (s : String) : Option Nat :=
  match s.toList with
  | [y1, y2, y3, y4, '-', m1, m2] => do
    let a ← digitVal y1
    let b ← digitVal y2
    let c ← digitVal y3
    let d ← digitVal y4
    let e ← digitVal m1
    let f ← digitVal m2
    let month := e * 10 + f
    if 1 ≤ month ∧ month ≤ 12 then
      some ((((a * 10 + b) * 10 + c) * 10 + d) * 12 + (month - 1))
    else none
  | _ => none

/-- Pandas `read_csv` on a delimited source: no lines at all is an
`EmptyDataError`.  The first data line fixes the expected width together
with the header; when it is longer than the header, its extra leading
fields become the row index (index-column inference) and the named
columns shift right by that offset.  A *later* line with more fields than
the expected width is a tokenizer `ParserError` (line numbers are 1-based,
header is line 1, so a failing line `i` of the remainder is line `i + 3`);
shorter lines are padded with NaN and do not raise. -/
def read_csv (src : Source) : Except LoadError RawTable :=
  match src with
  | [] => .error .emptyData
  | header :: body =>
    match body with
    | [] => .ok ⟨header, 0, []⟩
    | first :: restRows =>
      let width := max header.length first.length
      match restRows.findIdx? (fun row => width < row.length) with
      | some i => .error (.tokenizeError (i + 3))
      | none => .ok ⟨header, first.length - header.length, body⟩

/-- The index of the `date` column in a header, when present. -/
def dateCol (header : List String) : Option Nat :=
  header.findIdx? (· == "date")

/-- Coerce the `date` column of a raw table (`pd.to_datetime`): the cell
of a row at the `date` column sits `indexOffset` fields to the right of
the header position; a missing or empty cell is NaN and coerces to `NaT`
(`none`) without raising, while a present non-empty cell that does not
parse as a date raises `dateParseError`.  A table without a `date` column
passes through unchanged. -/
def coerce_dates (t : RawTable) : Except LoadError LoadedTable :=
  match dateCol t.header with
  | none => .ok ⟨t.header, t.indexOffset, t.rows, none⟩
  | some j =>
    let cells := t.rows.map (fun row => row.getD (t.indexOffset + j) "")
    match cells.find? (fun c => c ≠ "" && (parseDate c).isNone) with
    | some bad => .error (.dateParseError bad)
    | none => .ok ⟨t.header, t.indexOffset, t.rows, some (cells.map parseDate)⟩

/-- The loading pipeline inside `load_data`'s `try` block: parse, then
coerce the `date` column.  The `Except` error is the exception that would
propagate without the `except` clause. -/
def loadExcept (src : Source) : Except LoadError LoadedTable :=
  match read_csv src with
  | .error e => .error e
  | .ok t => coerce_dates t

/-- The function `load_data` (src/app.py lines 14-22): run the pipeline under
`try/except Exception: return None` — every failure collapses to the single
sentinel `none`. -/
def load_data (src : Source) : Option LoadedTable :=
  match loadExcept src with
  | .ok t => some t
  | .error _ => none

/-- A source whose *second* data line has more fields than the width fixed
by the header and the first data line: fails the tokenizer at line 3 (a
longer *first* data line would instead trigger index-column inference and
load). -/
def srcTokenizeBad : Source :=
  [["country", "date"], ["A", "2020-01"], ["B", "2020-02", "extra"]]

/-- A source that parses as a table but whose `date` column fails date
coercion. -/
def srcDateBad : Source :=
  [["country", "date"], ["A", "not-a-date"]]

/-! ## Historical table data model

One row per country per month (spec §3): we keep the fields the claims
touch. `date` is a month index, `tws_mean_cm` is rational. -/

/-- A row of the historical table. -/
structure HistRow where
  country : String
  iso_a3 : String
  date : Nat
  tws_mean_cm : ℚ
deriving DecidableEq, Repr

/-- The historical table: its rows, in table order, plus whether the
`iso_a3` column is present (`'iso_a3' in df.columns`, checked at
src/app.py line 337; when absent the `iso_a3` field of the rows is
meaningless). -/
structure HistTable where
  rows : List HistRow
  hasIso : Bool
deriving DecidableEq, Repr

/-! ## Filter Engine (src/app.py lines 106-110)

`mask_date` keeps rows with `date_range[0] <= date <= date_range[1]`,
`mask_country` keeps rows whose country is in the multiselect selection;
`filtered_df = df[mask_date & mask_country]`,
`full_date_filtered_df = df[mask_date]`. -/

/-- The date mask of a row for an inclusive `[start, end]` range. -/
def mask_date (start stop : Nat) (r : HistRow) : Bool :=
  start ≤ r.date && r.date ≤ stop

/-- The country mask: `df['country'].isin(selected_countries)`. -/
def mask_country (selected : List String) (r : HistRow) : Bool :=
  selected.contains r.country

/-- The view `filtered_df` (line 109): rows satisfying both masks. -/
def filtered_df (t : List HistRow) (selected : List String) (start stop : Nat) :
    List HistRow :=
  t.filter (fun r => mask_date start stop r && mask_country selected r)

/-- The view `full_date_filtered_df` (line 110): rows satisfying only the date mask. -/
def full_date_filtered_df (t : List HistRow) (start stop : Nat) : List HistRow :=
  t.filter (mask_date start stop)

/-! ## Aggregation / Summary (src/app.py lines 118-137) -/

/-- The value `df['date'].max()` over the table's rows (0 on the empty table, where
pandas yields `NaT` and the subsequent equality mask matches nothing —
our encoding also yields an empty snapshot there, see `latest_df`). -/
def latest_date (t : List HistRow) : Nat :=
  (t.map HistRow.date).foldr max 0

/-- The snapshot `latest_df = df[df['date'] == latest_date]` (line 119);
empty when `t` is empty. -/
def latest_df (t : List HistRow) : List HistRow :=
  match t with
  | [] => []
  | _ => t.filter (fun r => r.date == latest_date t)

/-- The drought threshold (line 128). -/
def drought_threshold : ℚ := -5

/-- The view `drought_countries = latest_df[latest_df['tws_mean_cm'] < -5]`
(line 129): snapshot rows strictly below the threshold. -/
def drought_countries (snapshot : List HistRow) : List HistRow :=
  snapshot.filter (fun r => r.tws_mean_cm < drought_threshold)

/-- The deficit-count KPI (line 130): `len(drought_countries)`. -/
def deficit_count (snapshot : List HistRow) : Nat :=
  (drought_countries snapshot).length

/-- Stable minimum over `tws_mean_cm`: the accumulator is replaced only on
a strictly smaller value, so the first row attaining the minimum wins —
the semantics of `nsmallest(1, ...)` with the default `keep='first'`. -/
def minFirst (m : HistRow) : List HistRow → HistRow
  | [] => m
  | x :: xs => minFirst (if x.tws_mean_cm < m.tws_mean_cm then x else m) xs

/-- The row `worst_hit = latest_df.nsmallest(1, 'tws_mean_cm').iloc[0]` (line 134),
guarded by `if not latest_df.empty` (line 133): the first row of the
snapshot attaining the minimal `tws_mean_cm`. -/
def worst_hit (snapshot : List HistRow) : Option HistRow :=
  match snapshot with
  | [] => none
  | r :: rs => some (minFirst r rs)

/-! ## Forecast Reconciler (src/app.py lines 330-398, tab 4) -/

/-- A row of the forecast table. -/
structure ForecastRow where
  country : String
  forecast_date : Nat
  predicted_tws : ℚ
deriving DecidableEq, Repr

/-- The forecast table: rows in order, plus the `country_name` column when
the source already has one (aligned with `rows`). -/
structure ForecastTable where
  rows : List ForecastRow
  country_name : Option (List String)
deriving DecidableEq, Repr

/-- An exception escaping the forecast tab: the `IndexError` of
`forecast_df['country'].iloc[0]` on an empty table, or the `ValueError` of
`DataFrame.pivot` on duplicate index entries. -/
inductive PanelError where
  | indexError : PanelError
  | valueError : PanelError
deriving DecidableEq, Repr

/-- Helper for `drop_duplicates`: keep the elements not seen before,
accumulating the values already kept. -/
def dropDupsAux {α : Type} [DecidableEq α] (seen : List α) : List α → List α
  | [] => []
  | x :: xs =>
    if x ∈ seen then dropDupsAux seen xs
    else x :: dropDupsAux (x :: seen) xs

/-- Pandas `DataFrame.drop_duplicates()`: keep the first occurrence of each
value (pandas default `keep='first'`). -/
def drop_duplicates {α : Type} [DecidableEq α] (l : List α) : List α :=
  dropDupsAux [] l

/-- Build a Python `dict` from a sequence of key/value pairs: later pairs
overwrite earlier ones with the same key. -/
def dict_of (ps : List (String × String)) : String → Option String :=
  ps.foldl (fun d p => fun k => if k = p.1 then some p.2 else d k) (fun _ => none)

/-- The lookup `iso_map` (line 338):
`df[['iso_a3','country']].drop_duplicates().set_index('iso_a3')['country'].to_dict()`
— drop full-duplicate pairs keeping the first, then build a dict where a
later pair with the same `iso_a3` overwrites an earlier one. -/
def iso_map (hist : List HistRow) : String → Option String :=
  dict_of (drop_duplicates (hist.map (fun r => (r.iso_a3, r.country))))

/-- Python `str.isupper`: at least one cased character and no cased
character lowercase (uncased characters such as digits are ignored). -/
def pyIsUpper (s : String) : Bool :=
  s.toList.any (fun c => c.isAlpha) && s.toList.all (fun c => !c.isLower)

/-- Identity resolution (lines 337-346): when `country_name` is already a
column, leave it alone; otherwise, when the historical table has `iso_a3`,
sniff the first forecast `country` value (`.iloc[0]` — an `IndexError` on
an empty table) and either map the whole column through `iso_map` with
`fillna` fallback to the raw code, or copy the `country` column verbatim;
without `iso_a3`, copy the `country` column verbatim. -/
def resolve_country_name (hist : HistTable) (f : ForecastTable) :
    Except PanelError (List String) :=
  match f.country_name with
  | some col => .ok col
  | none =>
    if hist.hasIso then
      match f.rows with
      | [] => .error .indexError
      | r0 :: _ =>
        if r0.country.length = 3 && pyIsUpper r0.country then
          .ok (f.rows.map (fun r => ((iso_map hist.rows) r.country).getD r.country))
        else
          .ok (f.rows.map (fun r => r.country))
    else
      .ok (f.rows.map (fun r => r.country))

/-- The view `forecast_filtered` (line 349): forecast rows, paired with their
resolved `country_name`, whose name is in the selected countries. -/
def forecast_filtered (rows : List ForecastRow) (names selected : List String) :
    List (ForecastRow × String) :=
  (rows.zip names).filter (fun p => selected.contains p.2)

/-- Series tag added for the combined chart (`Type` column, lines 361/366). -/
inductive SeriesType where
  | historical : SeriesType
  | forecast : SeriesType
deriving DecidableEq, Repr

/-- A row of the combined historical+forecast series. -/
structure CombinedRow where
  country : String
  date : Nat
  tws_mean_cm : ℚ
  type : SeriesType
deriving DecidableEq, Repr

/-- The block `recent_history` (lines 354-361): historical rows of the selected
countries from `lookback_date = df['date'].max() - 24 months` onwards,
tagged `Historical`.  (Truncated `Nat` subtraction matches pandas: when the
offset goes past the epoch every date satisfies the lower bound.) -/
def recent_history (hist : List HistRow) (selected : List String) :
    List CombinedRow :=
  let lookback := latest_date hist - 24
  (hist.filter (fun r => selected.contains r.country && lookback ≤ r.date)).map
    (fun r => ⟨r.country, r.date, r.tws_mean_cm, .historical⟩)

/-- The block `forecast_plot` (lines 363-366): filtered forecast rows renamed to the
historical schema and tagged `Forecast`. -/
def forecast_plot (ff : List (ForecastRow × String)) : List CombinedRow :=
  ff.map (fun p => ⟨p.2, p.1.forecast_date, p.1.predicted_tws, .forecast⟩)

/-- The series `combined_df = pd.concat([recent_history, forecast_plot])` (line 368):
plain concatenation, historical block first; no sorting is applied. -/
def combined_df (hist : List HistRow) (selected : List String)
    (ff : List (ForecastRow × String)) : List CombinedRow :=
  recent_history hist selected ++ forecast_plot ff

/-- The grid `forecast_filtered.pivot(index='country_name', columns='forecast_date',
values='predicted_tws')` (line 391): raises `ValueError` ("Index contains
duplicate entries, cannot reshape") when a `(country_name, forecast_date)`
pair repeats; otherwise a rectangular grid — sorted distinct names by
sorted distinct dates — with `none` (NaN) in the unfilled cells. -/
def pivot (rows : List (ForecastRow × String)) :
    Except PanelError (List (String × List (Nat × Option ℚ))) :=
  if (rows.map (fun p => (p.2, p.1.forecast_date))).Nodup then
    let countries := (drop_duplicates (rows.map (fun p => p.2))).mergeSort
      (fun a b => decide (a ≤ b))
    let dates := (drop_duplicates (rows.map (fun p => p.1.forecast_date))).mergeSort
      (fun a b => decide (a ≤ b))
    .ok (countries.map (fun c => (c, dates.map (fun d =>
      (d, (rows.find? (fun p => p.2 == c && p.1.forecast_date == d)).map
        (fun p => p.1.predicted_tws))))))
  else
    .error .valueError

/-- What the forecast tab displays for a loaded forecast table. -/
inductive PanelOutcome where
  /-- the `st.info("No forecast data available for: ...")` branch, line 395 -/
  | noForecast : PanelOutcome
  /-- the rendered combined series and pivoted summary table -/
  | rendered (combined : List CombinedRow)
      (pivotTable : List (String × List (Nat × Option ℚ))) : PanelOutcome
deriving DecidableEq, Repr

/-- The forecast tab pipeline (lines 330-395): resolve country names
(possibly raising `IndexError`), filter to the selection, report
`noForecast` when the filter is empty, otherwise render the combined
series and the pivot (possibly raising `ValueError`).  Uncaught exceptions
surface as `Except.error`. -/
def forecast_panel (hist : HistTable) (selected : List String)
    (f : ForecastTable) : Except PanelError PanelOutcome :=
  match resolve_country_name hist f with
  | .error e => .error e
  | .ok names =>
    let ff := forecast_filtered f.rows names selected
    if ff.isEmpty then
      .ok .noForecast
    else
      match pivot ff with
      | .error e => .error e
      | .ok pv => .ok (.rendered (combined_df hist.rows selected ff) pv)

/-! ## Auxiliary checkers and concrete tables used by the theorems -/

/-- Boolean check that a list of month indices is nondecreasing. -/
def nondecreasing : List Nat → Bool
  | [] => true
  | [_] => true
  | a :: b :: t => decide (a ≤ b) && nondecreasing (b :: t)

/-- Boolean check that a combined series is sorted by date within each
country: for every country appearing in the series, the dates of its rows,
in series order, are nondecreasing. -/
def sorted_by_date_within_country (rows : List CombinedRow) : Bool :=
  (drop_duplicates (rows.map (fun r => r.country))).all
    (fun c => nondecreasing ((rows.filter (fun r => r.country == c)).map
      (fun r => r.date)))

/-- The spec §8 scenario table
`[("A", 2020-01, 10.0), ("A", 2020-02, -6.0), ("B", 2020-02, 2.0)]`,
with `2020-01` and `2020-02` as month indices `2020 * 12` and
`2020 * 12 + 1` (the values `parseDate` assigns them). -/
def exScenario : List HistRow :=
  [⟨"A", "AAA", 24240, 10⟩, ⟨"A", "AAA", 24241, -6⟩, ⟨"B", "BBB", 24241, 2⟩]

/-- A historical table whose two rows for country `A` are out of date
order; both fall within 24 months of the latest date. -/
def exHistUnsorted : List HistRow :=
  [⟨"A", "AAA", 100, 1⟩, ⟨"A", "AAA", 99, 2⟩]

/-- A one-row filtered forecast selection for country `A`. -/
def exForecastFiltered : List (ForecastRow × String) :=
  [(⟨"A", 101, 0⟩, "A")]

/-- The spec §8 pivot scenario: forecast country codes `["USA", "USA"]`,
dates both `2024-01` (month index `2024 * 12 = 24288`) — a duplicated
`(country_name, forecast_date)` pair. -/
def exDupForecast : List (ForecastRow × String) :=
  [(⟨"USA", 24288, 0⟩, "USA"), (⟨"USA", 24288, 1⟩, "USA")]

/-- A snapshot with a tied minimum: rows `B` and `C` share value `1`, and
`B` comes first in table order. -/
def exTieSnapshot : List HistRow :=
  [⟨"A", "AAA", 5, 3⟩, ⟨"B", "BBB", 5, 1⟩, ⟨"C", "CCC", 5, 1⟩]

/-- A two-country historical table for exercising the ISO3 lookup. -/
def exHistIso : HistTable :=
  ⟨[⟨"United States", "USA", 0, 0⟩, ⟨"India", "IND", 0, 0⟩], true⟩

/-- A forecast table without a `country_name` column whose first `country`
value is ISO3-shaped; `ZZZ` has no match in the lookup. -/
def exForecastIso : ForecastTable :=
  ⟨[⟨"USA", 1, 2⟩, ⟨"ZZZ", 2, 3⟩], none⟩

/-- A forecast table that already carries a `country_name` column. -/
def exForecastNamed : ForecastTable :=
  ⟨[⟨"USA", 1, 2⟩, ⟨"IND", 2, 3⟩], some ["United States", "India"]⟩

/-- A successfully loaded forecast table with zero rows and no
`country_name` column. -/
def exForecastEmpty : ForecastTable := ⟨[], none⟩

/-! ## Theorems -/

/-- C1, counterexample.  The claim says the `LoadFailure` value "carries
the triggering condition".  Here are two sources with different triggering
conditions — a tokenizer failure on line 3, and a `date` cell that fails
date coercion — for which `load_data` returns the very same value `none`:
the returned failure value cannot carry (or even distinguish) the
condition, because `load_data` discards the caught exception. -/
theorem load_failure_does_not_carry_condition :
    loadExcept srcTokenizeBad = Except.error (LoadError.tokenizeError 3) ∧
      loadExcept srcDateBad = Except.error (LoadError.dateParseError "not-a-date") ∧
      LoadError.tokenizeError 3 ≠ LoadError.dateParseError "not-a-date" ∧
      load_data srcTokenizeBad = load_data srcDateBad := by
  refine ⟨rfl, rfl, by decide, rfl⟩

/-- C1, amended.  For every source, `load_data` returns the `LoadFailure`
sentinel `none` exactly when the parse or date coercion raises (so no
exception propagates to the caller), and returns the parsed table exactly
when the pipeline succeeds; the sentinel does not carry the triggering
condition. -/
theorem load_data_failure_sentinel (src : Source) :
    (load_data src = none ↔ ∃ e, loadExcept src = Except.error e) ∧
      ∀ t, load_data src = some t ↔ loadExcept src = Except.ok t := by
  cases h : loadExcept src with
  | ok t => simp [load_data, h]
  | error e => simp [load_data, h]

/-- C2.  For every filtered forecast table containing a duplicated
`(country_name, forecast_date)` pair, the pivot raises the specific
duplicate-index `ValueError` — a detectable ambiguity condition — and
never silently produces a grid. -/
theorem pivot_duplicate_pair_raises (rows : List (ForecastRow × String))
    (h : ¬ (rows.map (fun p => (p.2, p.1.forecast_date))).Nodup) :
    pivot rows = Except.error PanelError.valueError ∧
      ∀ g, pivot rows ≠ Except.ok g := by
  have hp : pivot rows = Except.error PanelError.valueError := by
    simp only [pivot]
    rw [if_neg h]
  refine ⟨hp, fun g hg => ?_⟩
  rw [hp] at hg
  exact Except.noConfusion hg

/-- C2, witness: the spec §8 scenario — country codes `["USA", "USA"]`,
both dates 2024-01 — is flagged as ambiguous, not averaged to a cell. -/
theorem pivot_duplicate_pair_raises_witness :
    pivot exDupForecast = Except.error PanelError.valueError ∧
      ∀ g, pivot exDupForecast ≠ Except.ok g :=
  pivot_duplicate_pair_raises exDupForecast (by decide)

/-- C9.  Reconciliation is idempotent on already-resolved data: when the
forecast table already has a `country_name` column, identity resolution
returns that column unchanged. -/
theorem resolve_keeps_existing_country_name (hist : HistTable)
    (f : ForecastTable) (col : List String) (h : f.country_name = some col) :
    resolve_country_name hist f = Except.ok col := by
  simp only [resolve_country_name, h]

/-- C9, witness: a forecast table that already carries
`country_name = ["United States", "India"]` keeps it verbatim. -/
theorem resolve_keeps_existing_country_name_witness :
    resolve_country_name exHistIso exForecastNamed =
      Except.ok ["United States", "India"] :=
  resolve_keeps_existing_country_name exHistIso exForecastNamed
    ["United States", "India"] rfl

/-- C10.  When the forecast table lacks `country_name`, the historical
table has `iso_a3`, and the forecast table has zero rows, the
`forecast_df['country'].iloc[0]` sniff raises `IndexError` before the
empty-selection check, so the forecast tab never reaches the
"no forecast available for selection" outcome on that input. -/
theorem empty_forecast_raises_index_error (hist : HistTable)
    (selected : List String) (f : ForecastTable)
    (hcol : f.country_name = none) (hiso : hist.hasIso = true)
    (hrows : f.rows = []) :
    forecast_panel hist selected f = Except.error PanelError.indexError ∧
      forecast_panel hist selected f ≠ Except.ok PanelOutcome.noForecast := by
  have h1 : resolve_country_name hist f = Except.error PanelError.indexError := by
    simp [resolve_country_name, hcol, hiso, hrows]
  have h2 : forecast_panel hist selected f = Except.error PanelError.indexError := by
    simp [forecast_panel, h1]
  refine ⟨h2, fun hc => ?_⟩
  rw [h2] at hc
  exact Except.noConfusion hc

/-- C10, witness: a loaded forecast table with zero rows and no
`country_name` column crashes the tab with `IndexError` instead of showing
the "no forecast available" message. -/
theorem empty_forecast_raises_index_error_witness :
    forecast_panel exHistIso ["A"] exForecastEmpty =
        Except.error PanelError.indexError ∧
      forecast_panel exHistIso ["A"] exForecastEmpty ≠
        Except.ok PanelOutcome.noForecast :=
  empty_forecast_raises_index_error exHistIso ["A"] exForecastEmpty rfl rfl rfl

/-- The fold computing `latest_date` lands on a member of a non-empty
list. -/
lemma foldr_max_mem (l : List Nat) (h : l ≠ []) : l.foldr max 0 ∈ l := by
  induction l with
  | nil => exact absurd rfl h
  | cons a l ih =>
    cases l with
    | nil => simp
    | cons b l' =>
      rcases le_total ((b :: l').foldr max 0) a with hle | hle
      · simp only [List.foldr_cons] at *
        rw [Nat.max_eq_left hle]
        exact List.mem_cons_self a _
      · simp only [List.foldr_cons] at *
        rw [Nat.max_eq_right hle]
        exact List.mem_cons_of_mem a (ih (by simp))

/-- A non-empty historical table has a row attaining `latest_date`. -/
lemma exists_row_at_latest_date (t : List HistRow) (h : t ≠ []) :
    ∃ r ∈ t, r.date = latest_date t := by
  have hm : latest_date t ∈ t.map HistRow.date := by
    apply foldr_max_mem
    simpa using h
  rcases List.mem_map.mp hm with ⟨r, hr, hd⟩
  exact ⟨r, hr, hd⟩

/-- C4.  For every historical table, the latest snapshot contains exactly
the rows whose date equals the table's maximum date, and the snapshot is
empty if and only if the table is empty. -/
theorem latest_snapshot_exact (t : List HistRow) :
    (∀ r, r ∈ latest_df t ↔ r ∈ t ∧ r.date = latest_date t) ∧
      (latest_df t = [] ↔ t = []) := by
  cases t with
  | nil => simp [latest_df]
  | cons a l =>
    constructor
    · intro r
      simp [latest_df, List.mem_filter]
    · constructor
      · intro he
        exfalso
        rcases exists_row_at_latest_date (a :: l) (by simp) with ⟨r, hr, hd⟩
        have hmem : r ∈ latest_df (a :: l) := by
          simp [latest_df, List.mem_filter, hr, hd]
        rw [he] at hmem
        exact List.not_mem_nil r hmem
      · intro he
        exact absurd he (List.cons_ne_nil a l)

/-- C5.  For every table, country selection and date interval, the
country-and-date view is contained in the date-only view, which is
contained in the table (containment as row sets); both views are built by
`List.filter`, a pure function of the input table, which is returned
unchanged — the embedding has no mutation. -/
theorem filter_views_contained (t : List HistRow) (selected : List String)
    (start stop : Nat) :
    filtered_df t selected start stop ⊆ full_date_filtered_df t start stop ∧
      full_date_filtered_df t start stop ⊆ t := by
  constructor
  · intro r hr
    simp only [filtered_df, List.mem_filter, Bool.and_eq_true] at hr
    simp only [full_date_filtered_df, List.mem_filter]
    exact ⟨hr.1, hr.2.1⟩
  · intro r hr
    simp only [full_date_filtered_df, List.mem_filter] at hr
    exact hr.1

/-- C7.  For every snapshot, the deficit count is the number of rows with
`tws_mean_cm` strictly below the −5 threshold (rows exactly at −5 are
excluded by the strict inequality); and on the spec §8 scenario table the
2020-02 snapshot has deficit count 1 with worst-hit row `A` at −6. -/
theorem deficit_count_strict_below_threshold :
    (∀ s : List HistRow,
        deficit_count s =
            s.countP (fun r => decide (r.tws_mean_cm < drought_threshold)) ∧
          ∀ r, r ∈ drought_countries s ↔ r ∈ s ∧ r.tws_mean_cm < -5) ∧
      parseDate "2020-01" = some 24240 ∧
      parseDate "2020-02" = some 24241 ∧
      latest_date exScenario = 24241 ∧
      deficit_count (latest_df exScenario) = 1 ∧
      worst_hit (latest_df exScenario) = some ⟨"A", "AAA", 24241, -6⟩ := by
  refine ⟨fun s => ⟨?_, ?_⟩, by decide, by decide, by decide, ?_, ?_⟩
  · simp [deficit_count, drought_countries, List.countP_eq_length_filter]
  · intro r
    simp [drought_countries, List.mem_filter, drought_threshold]
  · decide
  · decide

/-- The stable fold's result is no larger than the seed or any element. -/
lemma minFirst_le : ∀ (xs : List HistRow) (m : HistRow),
    (minFirst m xs).tws_mean_cm ≤ m.tws_mean_cm ∧
      ∀ x ∈ xs, (minFirst m xs).tws_mean_cm ≤ x.tws_mean_cm := by
  intro xs
  induction xs with
  | nil => intro m; simp [minFirst]
  | cons x xs ih =>
    intro m
    by_cases hx : x.tws_mean_cm < m.tws_mean_cm
    · simp only [minFirst, if_pos hx]
      refine ⟨le_of_lt (lt_of_le_of_lt (ih x).1 hx), ?_⟩
      intro y hy
      rcases List.mem_cons.mp hy with rfl | hy
      · exact (ih y).1
      · exact (ih x).2 y hy
    · simp only [minFirst, if_neg hx]
      refine ⟨(ih m).1, ?_⟩
      intro y hy
      rcases List.mem_cons.mp hy with rfl | hy
      · exact le_trans (ih m).1 (le_of_not_lt hx)
      · exact (ih m).2 y hy

/-- The stable fold's result is the seed or one of the elements. -/
lemma minFirst_mem : ∀ (xs : List HistRow) (m : HistRow),
    minFirst m xs ∈ m :: xs := by
  intro xs
  induction xs with
  | nil => intro m; simp [minFirst]
  | cons x xs ih =>
    intro m
    by_cases hx : x.tws_mean_cm < m.tws_mean_cm
    · simp only [minFirst, if_pos hx]
      exact List.mem_cons_of_mem m (ih x)
    · simp only [minFirst, if_neg hx]
      rcases List.mem_cons.mp (ih m) with h | h
      · rw [h]
        exact List.mem_cons_self _ _
      · exact List.mem_cons_of_mem _ (List.mem_cons_of_mem _ h)

/-- The stable fold keeps the seed first among rows attaining the minimum:
the first row of the list whose value equals the result's value is the
result itself. -/
lemma minFirst_head_filter : ∀ (xs : List HistRow) (m : HistRow),
    ((m :: xs).filter
        (fun r => decide (r.tws_mean_cm = (minFirst m xs).tws_mean_cm))).head? =
      some (minFirst m xs) := by
  intro xs
  induction xs with
  | nil =>
    intro m
    simp [minFirst]
  | cons x xs ih =>
    intro m
    by_cases hx : x.tws_mean_cm < m.tws_mean_cm
    · have hres : minFirst m (x :: xs) = minFirst x xs := by
        simp [minFirst, if_pos hx]
      have hlt : (minFirst x xs).tws_mean_cm < m.tws_mean_cm :=
        lt_of_le_of_lt (minFirst_le xs x).1 hx
      rw [hres, List.filter_cons, if_neg (by simpa using ne_of_gt hlt)]
      exact ih x
    · have hres : minFirst m (x :: xs) = minFirst m xs := by
        simp [minFirst, if_neg hx]
      rw [hres]
      by_cases hm : m.tws_mean_cm = (minFirst m xs).tws_mean_cm
      · have hmr : m = minFirst m xs := by
          have h1 := ih m
          rw [List.filter_cons, if_pos (by simpa using hm)] at h1
          simpa using h1
        rw [List.filter_cons, if_pos (by simpa using hm)]
        simp [← hmr]
      · have hlt : (minFirst m xs).tws_mean_cm < m.tws_mean_cm :=
          lt_of_le_of_ne (minFirst_le xs m).1 (fun he => hm he.symm)
        have hxne : ¬ x.tws_mean_cm = (minFirst m xs).tws_mean_cm := by
          have hxlt : (minFirst m xs).tws_mean_cm < x.tws_mean_cm :=
            lt_of_lt_of_le hlt (le_of_not_lt hx)
          intro he
          rw [he] at hxlt
          exact lt_irrefl _ hxlt
        have h1 := ih m
        rw [List.filter_cons, if_neg (by simpa using hm)] at h1
        rw [List.filter_cons, if_neg (by simpa using hm),
          List.filter_cons, if_neg (by simpa using hxne)]
        exact h1

/-- C6.  For every non-empty snapshot, `worst_hit` returns a row that is a
member of the snapshot, whose `tws_mean_cm` is ≤ every row's value, and
which is the first row in original table order among those attaining the
minimum (the stable tie-break of `nsmallest(1, ...)`). -/
theorem worst_hit_stable_minimum (s : List HistRow) (w : HistRow)
    (h : worst_hit s = some w) :
    w ∈ s ∧ (∀ r ∈ s, w.tws_mean_cm ≤ r.tws_mean_cm) ∧
      (s.filter (fun r => decide (r.tws_mean_cm = w.tws_mean_cm))).head? =
        some w := by
  cases s with
  | nil => exact Option.noConfusion h
  | cons a l =>
    obtain rfl : minFirst a l = w := by
      simpa [worst_hit] using h
    refine ⟨minFirst_mem l a, ?_, minFirst_head_filter l a⟩
    intro r hr
    rcases List.mem_cons.mp hr with rfl | hr
    · exact (minFirst_le l r).1
    · exact (minFirst_le l a).2 r hr

/-- C6, witness: on a snapshot where rows `B` and `C` tie at the minimum
value 1, the worst-hit row is `B`, the first in table order. -/
theorem worst_hit_stable_minimum_witness :
    (⟨"B", "BBB", 5, 1⟩ : HistRow) ∈ exTieSnapshot ∧
      (∀ r ∈ exTieSnapshot,
        (⟨"B", "BBB", 5, 1⟩ : HistRow).tws_mean_cm ≤ r.tws_mean_cm) ∧
      (exTieSnapshot.filter
          (fun r => decide
            (r.tws_mean_cm = (⟨"B", "BBB", 5, 1⟩ : HistRow).tws_mean_cm))).head? =
        some ⟨"B", "BBB", 5, 1⟩ :=
  worst_hit_stable_minimum exTieSnapshot ⟨"B", "BBB", 5, 1⟩ (by decide)

/-- C3, counterexample.  The claim says the combined series is "sorted by
date within each country".  On a historical table whose two rows for
country `A` are stored out of date order (dates 100 then 99, both within
the trailing 24 months) and a non-empty forecast selection, the combined
series lists country `A`'s dates as 100, 99, 101 — not sorted:
`combined_df` concatenates without sorting. -/
theorem combined_series_not_sorted_counterexample :
    exForecastFiltered ≠ [] ∧
      ¬ List.Pairwise
          (fun a b : CombinedRow => a.country = b.country → a.date ≤ b.date)
          (combined_df exHistUnsorted ["A"] exForecastFiltered) := by
  constructor
  · decide
  · decide

/-- C3, amended.  For every historical table, selection and filtered
forecast, the combined series is exactly the historical rows of the
selected countries with dates within 24 months of the latest historical
date, tagged `Historical`, followed by all filtered forecast rows tagged
`Forecast` — the two blocks concatenated in input order, with no
per-country date sorting applied. -/
theorem combined_series_blocks (hist : List HistRow) (selected : List String)
    (ff : List (ForecastRow × String)) :
    combined_df hist selected ff =
        recent_history hist selected ++ forecast_plot ff ∧
      ∀ r, r ∈ combined_df hist selected ff ↔
        (∃ h, h ∈ hist ∧
          (selected.contains h.country = true ∧
            latest_date hist - 24 ≤ h.date) ∧
          r = ⟨h.country, h.date, h.tws_mean_cm, SeriesType.historical⟩) ∨
        ∃ p, p ∈ ff ∧
          r = ⟨p.2, p.1.forecast_date, p.1.predicted_tws, SeriesType.forecast⟩ := by
  refine ⟨rfl, ?_⟩
  intro r
  simp only [combined_df, recent_history, forecast_plot, List.mem_append,
    List.mem_map, List.mem_filter, Bool.and_eq_true, decide_eq_true_eq]
  constructor
  · rintro (⟨h, ⟨hh, hc, hd⟩, rfl⟩ | ⟨p, hp, rfl⟩)
    · exact Or.inl ⟨h, hh, ⟨hc, hd⟩, rfl⟩
    · exact Or.inr ⟨p, hp, rfl⟩
  · rintro (⟨h, hh, ⟨hc, hd⟩, rfl⟩ | ⟨p, hp, rfl⟩)
    · exact Or.inl ⟨h, ⟨hh, hc, hd⟩, rfl⟩
    · exact Or.inr ⟨p, hp, rfl⟩

/-- A pair drawn from a list zipped with its image under `g` relates its
components through `g`. -/
lemma mem_zip_map_snd {α β : Type} (g : α → β) :
    ∀ (l : List α) (p : α × β), p ∈ l.zip (l.map g) → p.2 = g p.1 := by
  intro l
  induction l with
  | nil =>
    intro p hp
    simp at hp
  | cons x xs ih =>
    intro p hp
    simp only [List.map_cons, List.zip_cons_cons] at hp
    rcases List.mem_cons.mp hp with rfl | hp
    · rfl
    · exact ih p hp

/-- C8.  When the forecast table lacks `country_name` and the historical
table has `iso_a3`, resolution succeeds on a non-empty forecast table and
assigns every row: if the sampled first `country` value is exactly 3
characters and entirely upper-case, each row's name is its `country`
mapped through the `iso_map` lookup, falling back to the raw code when the
lookup has no match; otherwise each row's name is its `country` verbatim. -/
theorem iso_heuristic_resolution (hist : HistTable) (f : ForecastTable)
    (r0 : ForecastRow) (rest : List ForecastRow)
    (hcol : f.country_name = none) (hiso : hist.hasIso = true)
    (hrows : f.rows = r0 :: rest) :
    ∃ names, resolve_country_name hist f = Except.ok names ∧
      ∀ p ∈ f.rows.zip names,
        p.2 = if r0.country.length = 3 ∧ pyIsUpper r0.country = true then
            ((iso_map hist.rows) p.1.country).getD p.1.country
          else p.1.country := by
  by_cases hc : r0.country.length = 3 ∧ pyIsUpper r0.country = true
  · refine ⟨f.rows.map (fun r => ((iso_map hist.rows) r.country).getD r.country),
      ?_, ?_⟩
    · simp only [resolve_country_name, hcol, hiso, if_true, hrows]
      rw [if_pos (by simp [hc.1, hc.2])]
    · intro p hp
      rw [if_pos hc]
      exact mem_zip_map_snd _ f.rows p hp
  · refine ⟨f.rows.map (fun r => r.country), ?_, ?_⟩
    · simp only [resolve_country_name, hcol, hiso, if_true, hrows]
      rw [if_neg (by simpa [Decidable.not_and_iff_or_not] using hc)]
    · intro p hp
      rw [if_neg hc]
      exact mem_zip_map_snd _ f.rows p hp

/-- C8, witness: a forecast table `[USA, ZZZ]` without `country_name`,
against a historical table mapping `USA ↦ United States`: `USA` maps
through the lookup and the unmatched `ZZZ` falls back to the raw code. -/
theorem iso_heuristic_resolution_witness :
    ∃ names, resolve_country_name exHistIso exForecastIso = Except.ok names ∧
      ∀ p ∈ exForecastIso.rows.zip names,
        p.2 = if (⟨"USA", 1, 2⟩ : ForecastRow).country.length = 3 ∧
            pyIsUpper (⟨"USA", 1, 2⟩ : ForecastRow).country = true then
            ((iso_map exHistIso.rows) p.1.country).getD p.1.country
          else p.1.country :=
  iso_heuristic_resolution exHistIso exForecastIso ⟨"USA", 1, 2⟩
    [⟨"ZZZ", 2, 3⟩] rfl rfl rfl

end WaterTracker
